import Mathlib

/-!
Verification development for the manifest-driven CRUD backend
(`packages/core/manifest`): a shallow embedding of the dynamic
query-building core (`CrudService` in
`src/crud/services/database.service.ts`) and of the schema builder
(`EntityLoaderService.loadEntities`), together with theorems about the
read path (visible columns, relation loading, filtering, pagination),
the write path (store, delete) and the generated schemas.

Conventions of the embedding:
* JavaScript strings are Lean `String`s; the JS string methods used by
  the source (`includes`, `replace` with a string pattern, `split`) are
  re-implemented structurally on `List Char` so that all definitions
  are executable and kernel-reducible.
* The TypeORM `SelectQueryBuilder` is an external collaborator (the
  spec's "storage engine" facade); it is modelled as a record of the
  accumulated query fragments with TypeORM's documented method
  semantics: `select`/`orderBy`/`where` replace what was previously
  set, `addSelect`/`leftJoin` append, and named parameters merge by
  name.
* Thrown `HttpException`/`NotFoundException`s become an `Except` error
  channel; a JS runtime `TypeError` (e.g. a property access on
  `undefined`) is a distinct error constructor.
* The recursive relation loader takes an explicit `fuel` argument and
  returns `none` when the fuel is exhausted, so non-termination of the
  source recursion is expressible as "`none` for every fuel".
-/

/-! ## JS string helpers -/

/-- Does the character list start with the given pattern list? -/
def charsStartWith : List Char → List Char → Bool
  | _, [] => true
  | [], _ :: _ => false
  | c :: cs, p :: ps => c == p && charsStartWith cs ps

/-- Does the character list contain the pattern list as a contiguous
occurrence (JS `String.prototype.includes`)? -/
def charsContain (pat : List Char) : List Char → Bool
  | [] => pat.isEmpty
  | c :: rest => charsStartWith (c :: rest) pat || charsContain pat rest

/-- JS `s.includes(pat)`. -/
def jsIncludes (s pat : String) : Bool :=
  charsContain pat.data s.data

/-- Remove the first occurrence of a (nonempty) pattern. -/
def charsRemoveFirst (pat : List Char) : List Char → List Char
  | [] => []
  | c :: rest =>
    if charsStartWith (c :: rest) pat then (c :: rest).drop pat.length
    else c :: charsRemoveFirst pat rest

/-- JS `s.replace(pat, '')` for a string pattern: only the first
occurrence is removed; an empty pattern leaves the string unchanged
(the empty match is replaced by the empty string). -/
def jsRemoveFirst (s pat : String) : String :=
  if pat.data.isEmpty then s else String.mk (charsRemoveFirst pat.data s.data)

/-- Split a character list on a separator character. -/
def charsSplitOnChar (sep : Char) : List Char → List (List Char)
  | [] => [[]]
  | c :: rest =>
    match charsSplitOnChar sep rest with
    | [] => [[]]
    | g :: gs => if c == sep then [] :: g :: gs else (c :: g) :: gs

/-- JS `s.split(sep)` for a one-character separator; like in JS,
`"".split(sep) = [""]`. -/
def jsSplit (s : String) (sep : Char) : List String :=
  (charsSplitOnChar sep s.data).map String.mk

/-- Accumulate a decimal number over the leading digits (stops at the
first non-digit). -/
def natDigits (acc : Nat) : List Char → Nat
  | [] => acc
  | c :: rest => if c.isDigit then natDigits (acc * 10 + (c.toNat - '0'.toNat)) rest else acc

/-- Parse the leading decimal digits; `none` if the list does not start
with a digit. -/
def leadNat : List Char → Option Nat
  | [] => none
  | c :: rest => if c.isDigit then some (natDigits (c.toNat - '0'.toNat) rest) else none

/-- JS `parseInt(s, 10)`: skip leading whitespace, optional sign, then
the longest digit run; `none` models `NaN`. -/
def parseIntJS (s : String) : Option Int :=
  match s.data.dropWhile (fun c => c == ' ' || c == '\t' || c == '\n' || c == '\r') with
  | '-' :: rest => (leadNat rest).map (fun n => -(n : Int))
  | '+' :: rest => (leadNat rest).map (fun n => (n : Int))
  | t => (leadNat t).map (fun n => (n : Int))

/-- JS `x || d` on a number that may be `NaN` (`none`): `NaN`, `0` and
`-0` are falsy and give the default. -/
def jsOrInt (v : Option Int) (d : Int) : Int :=
  match v with
  | none => d
  | some n => if n = 0 then d else n

/-- Is an optional string truthy in JS (`undefined` and `""` are
falsy)? -/
def jsTruthy (s : Option String) : Bool :=
  match s with
  | none => false
  | some t => t != ""

/-- Uppercase the first character of a string. -/
def capitalizeFirst (s : String) : String :=
  match s.data with
  | [] => ""
  | c :: cs => String.mk (c.toUpper :: cs)

/-- Modelled from the spec: the `camelize` helper of `@repo/helpers`
(not under `src/`), which derives "a deterministic alias ... from the
parent alias + relation name": the first part verbatim, every later
part capitalized, all concatenated. -/
def camelize (parts : List String) : String :=
  match parts with
  | [] => ""
  | p :: ps => p ++ String.join (ps.map capitalizeFirst)

/-- JS object key assignment `acc[k] = v` on an insertion-ordered
object: an existing key is updated in place, a new key is appended. -/
def upsert {α : Type} (l : List (String × α)) (k : String) (v : α) : List (String × α) :=
  if l.any (fun kv => kv.1 == k) then
    l.map (fun kv => if kv.1 == k then (k, v) else kv)
  else l ++ [(k, v)]

/-! ## Manifest data model -/

/-- The fixed `PropType` enumeration of `@repo/types`. -/
inductive PropType : Type
  | String | Number | Link | Text | RichText | Money | Date | Timestamp
  | Email | Boolean | Password | Choice | Location | File | Image
deriving DecidableEq, Repr

/-- A property of an entity manifest. The `required` flag stands for
the declared requiredness used only by the external validation
collaborator (modelled from the spec; the schema layer ignores it). -/
structure PropertyManifest where
  name : String
  type : PropType
  hidden : Bool
  required : Bool
deriving DecidableEq, Repr

/-- Relationship cardinalities. -/
inductive RelationType : Type
  | oneToMany | manyToOne | manyToMany
deriving DecidableEq, Repr

/-- A relationship of an entity manifest. `targetClassName` collapses
the manifest's target reference and the TypeORM
`relationMetadata.inverseEntityMetadata.targetName`, which name the
same entity. -/
structure RelationshipManifest where
  name : String
  type : RelationType
  eager : Bool
  owningSide : Bool
  targetClassName : String
deriving DecidableEq, Repr

/-- An entity manifest. The TypeORM `EntityMetadata.relations` list is
kept in sync with `relationships` by construction in the source, so
the embedding collapses the two. -/
structure EntityManifest where
  className : String
  slug : String
  mainProp : String
  properties : List PropertyManifest
  relationships : List RelationshipManifest
  authenticable : Bool
  single : Bool
deriving DecidableEq, Repr

/-- Resolve an entity manifest by slug (`manifestService.getEntityManifest
{slug}`; the `fullVersion` flag of the external `ManifestService` is not
modelled — hidden-property filtering is represented where it appears in
`src`, in `getVisibleProps`). -/
def envLookupBySlug (env : List EntityManifest) (slug : String) : Option EntityManifest :=
  env.find? (fun m => m.slug == slug)

/-- Resolve an entity manifest by class name
(`manifestService.getEntityManifest {className}`). -/
def envLookupByClass (env : List EntityManifest) (cn : String) : Option EntityManifest :=
  env.find? (fun m => m.className == cn)

/-! ## Errors and the query-builder model -/

/-- A field-level validation error (`ValidationError` of
`class-validator`, interface in the source tree). -/
structure ValidationError where
  property : String
  constraints : List (String × String)
deriving DecidableEq, Repr

/-- Errors surfaced by the CRUD core: `NotFoundException`,
`HttpException(msg, 400)`, `HttpException(errors, 400)`, and the two
uncaught JS runtime errors the code can raise (a `TypeError` from a
property access on `undefined`, a `SyntaxError` from `JSON.parse`) —
the latter two are not HttpExceptions and surface as internal errors,
not bad requests. -/
inductive CrudError : Type
  | notFound (msg : String)
  | badRequestMsg (msg : String)
  | badRequestErrors (errors : List ValidationError)
  | runtimeTypeError (msg : String)
  | syntaxError (msg : String)
deriving DecidableEq, Repr

/-- The TypeORM `SelectQueryBuilder`, modelled from its documented
semantics as the spec's external storage facade: accumulated select
columns, left joins (property path, alias), WHERE expressions, named
parameters and ORDER BY entries (column, descending?). -/
structure SelectQB where
  selects : List String := []
  joins : List (String × String) := []
  wheres : List String := []
  params : List (String × String) := []
  orderBys : List (String × Bool) := []
deriving DecidableEq, Repr

/-- A fresh query builder (`createQueryBuilder('entity')`). -/
def emptyQB : SelectQB := {}

/-- `query.select(cols)`: replaces the selection. -/
def qbSelect (q : SelectQB) (cols : List String) : SelectQB :=
  { q with selects := cols }

/-- `query.addSelect(cols)`: appends to the selection. -/
def qbAddSelect (q : SelectQB) (cols : List String) : SelectQB :=
  { q with selects := q.selects ++ cols }

/-- `query.leftJoin(path, alias)`: appends a join. -/
def qbLeftJoin (q : SelectQB) (path al : String) : SelectQB :=
  { q with joins := q.joins ++ [(path, al)] }

/-- `query.where(expr, {name: value})`: TypeORM's `where` REPLACES any
previously set WHERE conditions; the named parameters merge by name
(a reused name is overwritten). -/
def qbWhere (q : SelectQB) (expr : String) (pname pvalue : String) : SelectQB :=
  { q with wheres := [expr], params := upsert q.params pname pvalue }

/-- `query.orderBy(col, dir)`: replaces the ordering. -/
def qbOrderBy (q : SelectQB) (col : String) (desc : Bool) : SelectQB :=
  { q with orderBys := [(col, desc)] }

/-! ## Filter operators and reserved query-parameter words -/

/-- The filter comparison operators (`WhereOperator` of `@repo/types`). -/
inductive WhereOperator : Type
  | eq | gt | gte | lt | lte | ne | like | inOp
deriving DecidableEq, Repr

/-- Modelled from the spec: the SQL fragments the operators interpolate
into the WHERE expression (the `WhereOperator` enum values of
`@repo/types`, which is not under `src/`). -/
def whereOperatorSql : WhereOperator → String
  | .eq => "=" | .gt => ">" | .gte => ">=" | .lt => "<"
  | .lte => "<=" | .ne => "!=" | .like => "LIKE" | .inOp => "IN"

/-- Modelled from the spec: the `whereOperatorKeySuffix` record of
`@repo/types` (not under `src/`), pairing each operator with its key
suffix, in the spec's declaration order `_eq`, `_gt`, `_gte`, `_lt`,
`_lte`, `_ne`, `_like`, `_in` (shorter variants declared before the
longer ones that contain them, so that reversing the list tries the
longer ones first). -/
def whereOperatorKeySuffix : List (WhereOperator × String) :=
  [(.eq, "_eq"), (.gt, "_gt"), (.gte, "_gte"), (.lt, "_lt"),
   (.lte, "_lte"), (.ne, "_ne"), (.like, "_like"), (.inOp, "_in")]

/-- Modelled from the spec: `QUERY_PARAMS_RESERVED_WORDS` of
`src/constants` (not under `src/`): page, perPage, orderBy, order,
relations. -/
def QUERY_PARAMS_RESERVED_WORDS : List String :=
  ["page", "perPage", "orderBy", "order", "relations"]

/-- Modelled from the spec: `DEFAULT_RESULTS_PER_PAGE` of
`src/constants` (not under `src/`), "some positive constant". -/
def DEFAULT_RESULTS_PER_PAGE : Int := 20

/-- The suffix search of `filterQuery`:
`Object.values(WhereKeySuffix).reverse().find(s => key.includes(s))`,
followed by the `getRecordKeyByValue` reverse lookup, collapsed into a
single search over the (operator, suffix) pairs — the reverse lookup
always succeeds because the suffix comes from the same record. -/
def findOperatorSuffix (key : String) : Option (WhereOperator × String) :=
  whereOperatorKeySuffix.reverse.find? (fun p => jsIncludes key p.2)

/-! ## CrudService.getVisibleProps -/

/-- `CrudService.getVisibleProps`: `id` is always visible; properties
named `password` are never selected; `hidden` properties are selected
only with `fullVersion`. -/
def getVisibleProps (props : List PropertyManifest) (al : String := "entity")
    (fullVersion : Bool := false) : List String :=
  (al ++ ".id") ::
    (((props.filter (fun prop => prop.name != "password")).filter
        (fun prop => fullVersion || !prop.hidden)).map
      (fun prop => al ++ "." ++ prop.name))

/-! ## JSON.parse (for the in-operator's bracketed list) -/

/-- JSON whitespace (`0x20`, `0x09`, `0x0A`, `0x0D`). -/
def jsonIsWs (c : Char) : Bool :=
  c == ' ' || c == '\t' || c == '\n' || c == '\r'

/-- Skip JSON whitespace. -/
def skipJsonWs (s : List Char) : List Char :=
  s.dropWhile jsonIsWs

/-- A hexadecimal digit (for `\\uXXXX` escapes). -/
def jsonIsHexDigit (c : Char) : Bool :=
  c.isDigit || ('a' ≤ c && c ≤ 'f') || ('A' ≤ c && c ≤ 'F')

/-- Consume the remainder of a JSON string after its opening quote:
any character except `"`, `\\` and controls below `0x20`, or one of
the JSON escapes (`\\" \\\\ \\/ \\b \\f \\n \\r \\t \\uXXXX`). Returns the
input after the closing quote, `none` on a malformed string. -/
def jsonStringRest : List Char → Option (List Char)
  | [] => none
  | '"' :: rest => some rest
  | '\\' :: 'u' :: h1 :: h2 :: h3 :: h4 :: rest =>
    if jsonIsHexDigit h1 && jsonIsHexDigit h2 && jsonIsHexDigit h3 && jsonIsHexDigit h4 then
      jsonStringRest rest
    else none
  | '\\' :: c :: rest =>
    if c == '"' || c == '\\' || c == '/' || c == 'b' || c == 'f' || c == 'n' || c == 'r'
        || c == 't' then
      jsonStringRest rest
    else none
  | c :: rest => if c.toNat < 32 then none else jsonStringRest rest

/-- Consume a JSON integer part: `0`, or a nonzero digit followed by
digits. -/
def jsonIntPart : List Char → Option (List Char)
  | [] => none
  | '0' :: rest => some rest
  | c :: rest => if '1' ≤ c && c ≤ '9' then some (rest.dropWhile Char.isDigit) else none

/-- Consume an optional JSON fraction part (`.` followed by one or
more digits). -/
def jsonFracPart : List Char → Option (List Char)
  | '.' :: c :: rest => if c.isDigit then some (rest.dropWhile Char.isDigit) else none
  | '.' :: [] => none
  | s => some s

/-- Consume an optional JSON exponent part (`e`/`E`, optional sign,
one or more digits). -/
def jsonExpPart : List Char → Option (List Char)
  | [] => some []
  | c :: rest =>
    if c == 'e' || c == 'E' then
      match rest with
      | [] => none
      | sgn :: r2 =>
        if sgn == '+' || sgn == '-' then
          match r2 with
          | [] => none
          | d :: r3 => if d.isDigit then some (r3.dropWhile Char.isDigit) else none
        else if sgn.isDigit then some (r2.dropWhile Char.isDigit) else none
    else some (c :: rest)

/-- Consume a JSON number (optional minus, integer part, optional
fraction and exponent). Fails on anything that does not start like a
JSON number, which also makes it the fall-through of value parsing. -/
def jsonNumber (s : List Char) : Option (List Char) :=
  match s with
  | '-' :: rest => ((jsonIntPart rest).bind jsonFracPart).bind jsonExpPart
  | _ => ((jsonIntPart s).bind jsonFracPart).bind jsonExpPart

mutual

/-- Consume one JSON value (whitespace already skipped): object,
array, string, `true`, `false`, `null` or number. The fuel only bounds
the mutual recursion; every recursive call first consumes input, so
`2 * length + 8` fuel is always enough. -/
def jsonValue : Nat → List Char → Option (List Char)
  | 0, _ => none
  | fuel + 1, s =>
    match s with
    | '{' :: rest => jsonObjectBody fuel (skipJsonWs rest)
    | '[' :: rest => jsonArrayBody fuel (skipJsonWs rest)
    | '"' :: rest => jsonStringRest rest
    | 't' :: 'r' :: 'u' :: 'e' :: rest => some rest
    | 'f' :: 'a' :: 'l' :: 's' :: 'e' :: rest => some rest
    | 'n' :: 'u' :: 'l' :: 'l' :: rest => some rest
    | s => jsonNumber s

/-- Consume an array body after `[` and whitespace: `]` or a first
element followed by the tail. -/
def jsonArrayBody : Nat → List Char → Option (List Char)
  | 0, _ => none
  | fuel + 1, s =>
    match s with
    | ']' :: rest => some rest
    | s =>
      match jsonValue fuel s with
      | none => none
      | some rest => jsonArrayTail fuel (skipJsonWs rest)

/-- Consume an array tail after an element and whitespace: `]`, or `,`
and another element. -/
def jsonArrayTail : Nat → List Char → Option (List Char)
  | 0, _ => none
  | fuel + 1, s =>
    match s with
    | ']' :: rest => some rest
    | ',' :: rest =>
      match jsonValue fuel (skipJsonWs rest) with
      | none => none
      | some r2 => jsonArrayTail fuel (skipJsonWs r2)
    | _ => none

/-- Consume an object body after `{` and whitespace: `}` or a first
member followed by the tail. -/
def jsonObjectBody : Nat → List Char → Option (List Char)
  | 0, _ => none
  | fuel + 1, s =>
    match s with
    | '}' :: rest => some rest
    | s =>
      match jsonMember fuel s with
      | none => none
      | some rest => jsonObjectTail fuel (skipJsonWs rest)

/-- Consume an object tail after a member and whitespace: `}`, or `,`
and another member. -/
def jsonObjectTail : Nat → List Char → Option (List Char)
  | 0, _ => none
  | fuel + 1, s =>
    match s with
    | '}' :: rest => some rest
    | ',' :: rest =>
      match jsonMember fuel (skipJsonWs rest) with
      | none => none
      | some r2 => jsonObjectTail fuel (skipJsonWs r2)
    | _ => none

/-- Consume one object member (whitespace already skipped): a string
key, whitespace, `:`, and a value (with its leading whitespace). -/
def jsonMember : Nat → List Char → Option (List Char)
  | 0, _ => none
  | fuel + 1, s =>
    match s with
    | '"' :: rest =>
      match jsonStringRest rest with
      | none => none
      | some r1 =>
        match skipJsonWs r1 with
        | ':' :: r2 => jsonValue fuel (skipJsonWs r2)
        | _ => none
    | _ => none

end

/-- Modelled from the JS builtin `JSON.parse` (an external runtime
facility like the query builder): does the string parse as a complete
JSON text (whitespace, one value, whitespace, end of input)? -/
def jsonTextValid (s : String) : Bool :=
  match jsonValue (2 * s.data.length + 8) (skipJsonWs s.data) with
  | some rest => (skipJsonWs rest).isEmpty
  | none => false

/-! ## CrudService.filterQuery -/

/-- The boolean-literal normalization of `filterQuery`: for a Boolean
property, `"true"`/`"false"` become `"1"`/`"0"`. -/
def normalizedFilterValue (found : Option PropertyManifest) (value : String) : String :=
  match found with
  | some prop =>
    if prop.type == PropType.Boolean then
      if value == "true" then "1" else if value == "false" then "0" else value
    else value
  | none => value

/-- The body of the `forEach` in `CrudService.filterQuery`, processing
one non-reserved query-parameter entry: find the operator suffix
(reject the key without one), strip it, look up a matching non-hidden
property and a relationship matching the first dotted segment (reject
when neither exists), build the qualified column reference, normalize
boolean literals, and set the WHERE condition. For the `in` operator
the source runs `JSON.parse` over the bracketed value
(`JSON.parse('[' + value + ']')`), which throws an uncaught
`SyntaxError` on a malformed list. -/
def applyFilterEntry (em : EntityManifest) (q : SelectQB) (key value : String) :
    Except CrudError SelectQB :=
  match findOperatorSuffix key with
  | none => .error (.badRequestMsg "Query param key should include an operator suffix")
  | some opSuffix =>
    let propName : String := jsRemoveFirst key opSuffix.2
    let prop? : Option PropertyManifest :=
      em.properties.find? (fun prop => prop.name == propName && !prop.hidden)
    let rel? : Option RelationshipManifest :=
      em.relationships.find? (fun r => r.name == ((jsSplit propName '.').headD ""))
    if prop?.isNone && rel?.isNone then
      .error (.badRequestMsg ("Property " ++ propName ++ " does not exist in " ++ em.className))
    else
      let whereKey : String :=
        match rel? with
        | some r => camelize ["entity", r.name] ++ "." ++ (((jsSplit propName '.').get? 1).getD "undefined")
        | none => "entity." ++ propName
      let value1 : String := normalizedFilterValue prop? value
      if opSuffix.1 == WhereOperator.inOp then
        if jsonTextValid ("[" ++ value1 ++ "]") then
          .ok (qbWhere q (whereKey ++ " " ++ whereOperatorSql opSuffix.1 ++ " (:...value)") "value" value1)
        else
          .error (.syntaxError "Unexpected token in JSON")
      else
        .ok (qbWhere q (whereKey ++ " " ++ whereOperatorSql opSuffix.1 ++ " :value") "value" value1)

/-- The `forEach` loop of `filterQuery` over the non-reserved entries;
a thrown `HttpException` aborts the loop. -/
def goFilter (em : EntityManifest) : List (String × String) → SelectQB → Except CrudError SelectQB
  | [], q => .ok q
  | kv :: rest, q =>
    match applyFilterEntry em q kv.1 kv.2 with
    | .ok q' => goFilter em rest q'
    | .error e => .error e

/-- `CrudService.filterQuery`: `Object.entries(queryParams || {})`,
reserved words dropped, each remaining entry applied in order. -/
def filterQuery (q : SelectQB) (queryParams : Option (List (String × String)))
    (em : EntityManifest) : Except CrudError SelectQB :=
  goFilter em
    ((queryParams.getD []).filter (fun kv => !QUERY_PARAMS_RESERVED_WORDS.contains kv.1)) q

/-! ## CrudService.loadRelations -/

/-- `requestedRelations?.includes(name)` (an absent list is falsy). -/
def requestedContains (requested : Option (List String)) (name : String) : Bool :=
  match requested with
  | none => false
  | some rs => rs.contains name

/-- The pruning of the requested-relations list passed to the recursive
call: remove the traversed relation and strip its dotted prefix from
the remaining paths (`filter(...).map(r => r.replace(name + '.', ''))`). -/
def pruneRequested (requested : Option (List String)) (name : String) : Option (List String) :=
  requested.map (fun rs =>
    (rs.filter (fun r => r != name)).map (fun r => jsRemoveFirst r (name ++ ".")))

/-- `CrudService.loadRelations`, with an explicit `fuel` bound on the
recursion (the source recursion has no such bound; `none` means the
fuel ran out, i.e. the source would still be recursing). The `forEach`
over `entityMetadata.relations` is the structural recursion over
`rels`; a relation is processed when it is eager or requested, by
joining it under the camelized alias, adding the target's visible
props, and recursing into the target's relations (when it has any)
with the pruned requested list. -/
def loadRelations (env : List EntityManifest) :
    Nat → SelectQB → List RelationshipManifest → Option (List String) → String →
    Option (Except CrudError SelectQB)
  | 0, _, _, _, _ => none
  | _ + 1, q, [], _, _ => some (.ok q)
  | fuel + 1, q, rel :: rest, requested, al =>
    let res : Option (Except CrudError SelectQB) :=
      if !rel.eager && !requestedContains requested rel.name then some (.ok q)
      else
        let aliasName : String := camelize [al, rel.name]
        let q1 : SelectQB := qbLeftJoin q (al ++ "." ++ rel.name) aliasName
        match envLookupByClass env rel.targetClassName with
        | none => some (.error (.notFound ("Entity " ++ rel.targetClassName ++ " not found")))
        | some target =>
          let q2 : SelectQB := qbAddSelect q1 (getVisibleProps target.properties aliasName false)
          if target.relationships.isEmpty then some (.ok q2)
          else loadRelations env fuel q2 target.relationships (pruneRequested requested rel.name) aliasName
    match res with
    | some (Except.ok q') => loadRelations env fuel q' rest requested al
    | other => other

/-! ## CrudService.findAll -/

/-- The arguments `findAll` hands to the external
`paginationService.paginate`. -/
structure PaginateArgs where
  query : SelectQB
  currentPage : Int
  resultsPerPage : Int
deriving DecidableEq, Repr

/-- The ordering step of `findAll`: with a truthy `orderBy` param, the
named property must be a non-hidden property of the entity (else bad
request) and the order is `DESC` exactly when the `order` param equals
`"DESC"`; otherwise the default order is `entity.id DESC`. -/
def orderStep (q : SelectQB) (queryParams : Option (List (String × String)))
    (em : EntityManifest) (entitySlug : String) : Except CrudError SelectQB :=
  match queryParams.bind (fun qp => qp.lookup "orderBy") with
  | some ob =>
    if ob == "" then .ok (qbOrderBy q "entity.id" true)
    else if (em.properties.find? (fun prop => prop.name == ob && !prop.hidden)).isNone then
      .error (.badRequestMsg ("Property " ++ ob ++ " does not exist in " ++ entitySlug ++
        " and thus cannot be used for ordering"))
    else
      .ok (qbOrderBy q ("entity." ++ ob)
        ((queryParams.bind (fun qp => qp.lookup "order")) == some "DESC"))
  | none => .ok (qbOrderBy q "entity.id" true)

/-- `CrudService.findAll`: resolve the manifest by slug, select the
visible props, load relations (with `fuel` bounding the recursion),
apply the filters, apply the ordering, then build the pagination
arguments. The final step reads `queryParams.page` WITHOUT an optional
guard, so an omitted `queryParams` raises a runtime `TypeError` there;
`page`/`perPage` go through `parseInt(..., 10) || default`. -/
def findAll (env : List EntityManifest) (entitySlug : String)
    (queryParams : Option (List (String × String))) (fullVersion : Bool) (fuel : Nat) :
    Option (Except CrudError PaginateArgs) :=
  match envLookupBySlug env entitySlug with
  | none => some (.error (.notFound ("Entity " ++ entitySlug ++ " not found")))
  | some em =>
    let q0 : SelectQB := qbSelect emptyQB (getVisibleProps em.properties "entity" fullVersion)
    let requested : Option (List String) :=
      (queryParams.bind (fun qp => qp.lookup "relations")).map (fun s => jsSplit s ',')
    match loadRelations env fuel q0 em.relationships requested "entity" with
    | none => none
    | some (Except.error e) => some (.error e)
    | some (Except.ok q1) =>
      match filterQuery q1 queryParams em with
      | .error e => some (.error e)
      | .ok q2 =>
        match orderStep q2 queryParams em entitySlug with
        | .error e => some (.error e)
        | .ok q3 =>
          match queryParams with
          | none => some (.error (.runtimeTypeError "Cannot read properties of undefined"))
          | some qp =>
            some (.ok {
              query := q3
              currentPage := jsOrInt ((qp.lookup "page").bind parseIntJS) 1
              resultsPerPage :=
                jsOrInt ((qp.lookup "perPage").bind parseIntJS) DEFAULT_RESULTS_PER_PAGE })

/-! ## CrudService.delete -/

/-- A persisted row as loaded by `findOne({where: {id}, relations})`:
its id and, per relation name, the ids of the populated related
items. -/
structure Row where
  id : Int
  relationItems : List (String × List Int)
deriving DecidableEq, Repr

/-- The `forEach` over the one-to-many relationships in
`CrudService.delete`: throw a bad request naming the first relation
that still has related items. -/
def checkOneToMany (item : Row) : List RelationshipManifest → Except CrudError Unit
  | [] => .ok ()
  | r :: rest =>
    if ((item.relationItems.lookup r.name).getD []).isEmpty then checkOneToMany item rest
    else .error (.badRequestMsg ("Cannot delete item as it has related " ++ r.name ++
      ". Please delete the related items first."))

/-- `CrudService.delete`: load the item with its one-to-many relations
populated (`NotFound` if absent), reject while any one-to-many
relation has related items, otherwise delete the row by id. The result
pairs the outcome with the table after the call, so an error leaves
the table unchanged. -/
def delete (env : List EntityManifest) (table : List Row) (entitySlug : String) (id : Int) :
    Except CrudError Unit × List Row :=
  match envLookupBySlug env entitySlug with
  | none => (.error (.notFound ("Entity " ++ entitySlug ++ " not found")), table)
  | some em =>
    let oneToManyRelationships : List RelationshipManifest :=
      em.relationships.filter (fun r => r.type == RelationType.oneToMany)
    match table.find? (fun row => row.id == id) with
    | none => (.error (.notFound "Item not found"), table)
    | some item =>
      match checkOneToMany item oneToManyRelationships with
      | .error e => (.error e, table)
      | .ok _ => (.ok (), table.filter (fun row => !(row.id == id)))

/-! ## CrudService.store -/

/-- An entity record under construction (`BaseEntity` fields as a
string-keyed object). -/
abbrev Fields := List (String × String)

/-- JS object spread `{...a, ...b}`: keys of `b` override `a`. -/
def mergeFields (a b : Fields) : Fields :=
  b.foldl (fun acc kv => upsert acc kv.1 kv.2) a

/-- The candidate entity `store` validates: `repository.create(itemDto)`
plus, for an authenticable entity with a truthy dto password, the
hashed password (`SHA3`, an external collaborator passed as `hash`). -/
def mkCandidate (em : EntityManifest) (hash : String → String) (itemDto : Fields) : Fields :=
  if em.authenticable && jsTruthy (itemDto.lookup "password") then
    upsert itemDto "password" (hash ((itemDto.lookup "password").getD ""))
  else itemDto

/-- The relationship filter of `store`/`update`: every relationship
other than one-to-many, excluding the non-owning side of
many-to-many. -/
def storeRelationFilter (em : EntityManifest) : List RelationshipManifest :=
  (em.relationships.filter (fun r => !(r.type == RelationType.oneToMany))).filter
    (fun r => !(r.type == RelationType.manyToMany) || r.owningSide)

/-- `CrudService.store`: build the candidate entity from the dto, fetch
the relation items (external `relationshipService`, passed as
`fetchRel`), hash the password when applicable, validate (external
`validationService`, passed as `validate`); throw the structured error
list as a bad request when non-empty, else persist
`{...newItem, ...relationItems}`. The result pairs the outcome with
the table after the call, so a thrown error persists nothing. -/
def store (env : List EntityManifest)
    (validate : Fields → EntityManifest → List ValidationError)
    (hash : String → String)
    (fetchRel : Fields → List RelationshipManifest → Fields)
    (entitySlug : String) (itemDto : Fields) (table : List Fields) :
    Except CrudError Fields × List Fields :=
  match envLookupBySlug env entitySlug with
  | none => (.error (.notFound ("Entity " ++ entitySlug ++ " not found")), table)
  | some em =>
    let newItem : Fields := mkCandidate em hash itemDto
    let relationItems : Fields := fetchRel itemDto (storeRelationFilter em)
    let errors : List ValidationError := validate newItem em
    if errors.isEmpty then
      let saved : Fields := mergeFields newItem relationItems
      (.ok saved, table ++ [saved])
    else (.error (.badRequestErrors errors), table)

/-! ## EntityLoaderService.loadEntities -/

/-- A generated column (`EntitySchemaColumnOptions`). -/
structure ColumnModel where
  name : String
  colType : String
  nullable : Bool
  primary : Bool := false
deriving DecidableEq, Repr

/-- A generated schema (`EntitySchema` name, insertion-ordered column
map and uniqueness constraints; the relation options built by the
external `RelationshipService` are not modelled). -/
structure EntitySchemaModel where
  name : String
  columns : List (String × ColumnModel)
  uniques : List (List String)
deriving DecidableEq, Repr

/-- The `propTypeColumnTypes` record of
`src/entity/records/prop-type-column-types.ts` (sqlite column type per
prop type). -/
def propTypeColumnTypes : PropType → String
  | .String => "varchar" | .Number => "decimal" | .Link => "varchar"
  | .Text => "text" | .RichText => "text" | .Money => "decimal"
  | .Date => "date" | .Timestamp => "integer" | .Email => "varchar"
  | .Boolean => "boolean" | .Password => "varchar" | .Choice => "simple-enum"
  | .Location => "json" | .File => "varchar" | .Image => "json"

/-- Modelled from the spec: the `baseEntity` column template (not under
`src/`): plain entities get a non-nullable identity column plus
timestamps. -/
def baseEntity : List (String × ColumnModel) :=
  [("id", { name := "id", colType := "integer", nullable := false, primary := true }),
   ("createdAt", { name := "createdAt", colType := "date", nullable := false }),
   ("updatedAt", { name := "updatedAt", colType := "date", nullable := false })]

/-- Modelled from the spec: the `baseAuthenticableEntity` column
template (not under `src/`): the plain base plus email and password
columns. -/
def baseAuthenticableEntity : List (String × ColumnModel) :=
  baseEntity ++
    [("email", { name := "email", colType := "varchar", nullable := false }),
     ("password", { name := "password", colType := "varchar", nullable := false })]

/-- The column generated for one `PropertyManifest`: mapped column
type, `nullable: true` always (validation is an application-layer
concern). -/
def columnOfProp (prop : PropertyManifest) : ColumnModel :=
  { name := prop.name, colType := propTypeColumnTypes prop.type, nullable := true }

/-- `EntityLoaderService.loadEntities` for one manifest: the `reduce`
over the properties starting from the base template, plus the
email-uniqueness constraint exactly for authenticable entities. -/
def loadEntity (em : EntityManifest) : EntitySchemaModel :=
  { name := em.className
    columns := em.properties.foldl (fun acc prop => upsert acc prop.name (columnOfProp prop))
      (if em.authenticable then baseAuthenticableEntity else baseEntity)
    uniques := if em.authenticable then [["email"]] else [] }

/-- `EntityLoaderService.loadEntities`: one schema per manifest. -/
def loadEntities (env : List EntityManifest) : List EntitySchemaModel :=
  env.map loadEntity

/-! ## Concrete fixtures -/

/-- A visible string property `name`. -/
def nameProp : PropertyManifest :=
  { name := "name", type := PropType.String, hidden := false, required := true }

/-- A visible number property `age`. -/
def ageProp : PropertyManifest :=
  { name := "age", type := PropType.Number, hidden := false, required := false }

/-- A `cats` entity with no relationships. -/
def catManifest : EntityManifest :=
  { className := "Cat", slug := "cats", mainProp := "name",
    properties := [nameProp, ageProp], relationships := [],
    authenticable := false, single := false }

/-! ## Additional concrete fixtures used by the theorems -/

/-- A non-hidden Password-TYPED property whose name is not
`password`. -/
def pinProp : PropertyManifest :=
  { name := "pin", type := PropType.Password, hidden := false, required := true }

/-- An entity carrying the password-typed `pin` property. -/
def deviceManifest : EntityManifest :=
  { className := "Device", slug := "devices", mainProp := "pin",
    properties := [pinProp], relationships := [],
    authenticable := false, single := false }

/-- A non-eager many-to-one relationship `owner` of the cat entity. -/
def ownerRel : RelationshipManifest :=
  { name := "owner", type := RelationType.manyToOne, eager := false,
    owningSide := true, targetClassName := "Owner" }

/-- A `cats` entity with the `owner` relationship. -/
def catWithOwner : EntityManifest :=
  { className := "Cat", slug := "cats", mainProp := "name",
    properties := [nameProp, ageProp], relationships := [ownerRel],
    authenticable := false, single := false }

/-- The `Owner` target entity; note it has NO property `bogus`. -/
def ownerManifest : EntityManifest :=
  { className := "Owner", slug := "owners", mainProp := "name",
    properties := [nameProp], relationships := [],
    authenticable := false, single := false }

/-- Entity `A` with an EAGER relation `b` to `B`. -/
def entA_eager : EntityManifest :=
  { className := "A", slug := "a", mainProp := "name",
    properties := [nameProp],
    relationships := [{ name := "b", type := RelationType.manyToOne, eager := true,
                        owningSide := true, targetClassName := "B" }],
    authenticable := false, single := false }

/-- Entity `B` with an EAGER relation `a` back to `A`. -/
def entB_eager : EntityManifest :=
  { className := "B", slug := "b", mainProp := "name",
    properties := [nameProp],
    relationships := [{ name := "a", type := RelationType.manyToOne, eager := true,
                        owningSide := true, targetClassName := "A" }],
    authenticable := false, single := false }

/-- The cyclic eager entity graph. -/
def envEager : List EntityManifest := [entA_eager, entB_eager]

/-- Entity `A` with a NON-eager relation `b` to `B`. -/
def entA2 : EntityManifest :=
  { className := "A", slug := "a", mainProp := "name",
    properties := [nameProp],
    relationships := [{ name := "b", type := RelationType.manyToOne, eager := false,
                        owningSide := true, targetClassName := "B" }],
    authenticable := false, single := false }

/-- Entity `B` with a NON-eager relation `a` back to `A`. -/
def entB2 : EntityManifest :=
  { className := "B", slug := "b", mainProp := "name",
    properties := [nameProp],
    relationships := [{ name := "a", type := RelationType.manyToOne, eager := false,
                        owningSide := true, targetClassName := "A" }],
    authenticable := false, single := false }

/-- The cyclic entity graph with no eager relations. -/
def envCycle : List EntityManifest := [entA2, entB2]

/-- Size of a requested-relations list (an absent list counts 0). -/
def reqSize : Option (List String) → Nat
  | none => 0
  | some rs => rs.length

/-- The current-page formula as the SPEC words it (a refinement
comparison definition, deliberately written from the spec and not from
the code): `max(1, parseInt(page) or 1)`. -/
def specCurrentPage (pageParam : Option String) : Int :=
  max 1 (jsOrInt (pageParam.bind parseIntJS) 1)

/-- An `owners` entity with a one-to-many relation `cats`. -/
def ownersManifest : EntityManifest :=
  { className := "Owner", slug := "owners", mainProp := "name",
    properties := [nameProp],
    relationships := [{ name := "cats", type := RelationType.oneToMany, eager := false,
                        owningSide := false, targetClassName := "Cat" }],
    authenticable := false, single := false }

/-- An owner row whose `cats` relation still holds one related item. -/
def rowBlocked : Row := { id := 1, relationItems := [("cats", [2])] }

/-- An owner row with no related cats. -/
def rowFree : Row := { id := 1, relationItems := [("cats", [])] }

/-- Another owner row, untouched by the delete. -/
def rowOther : Row := { id := 2, relationItems := [("cats", [])] }

/-- A validator that always reports a missing `name`. -/
def rejectingValidate : Fields → EntityManifest → List ValidationError :=
  fun _ _ => [{ property := "name", constraints := [("isNotEmpty", "name should not be empty")] }]

/-- A validator that always passes. -/
def acceptingValidate : Fields → EntityManifest → List ValidationError :=
  fun _ _ => []

/-- A stand-in hash for the external SHA3 collaborator. -/
def tagHash : String → String := fun s => "hashed:" ++ s

/-- A relation fetcher returning no relation items. -/
def noRelations : Fields → List RelationshipManifest → Fields := fun _ _ => []

/-- An authenticable `users` entity. -/
def userManifest : EntityManifest :=
  { className := "User", slug := "users", mainProp := "name",
    properties := [nameProp], relationships := [],
    authenticable := true, single := false }

/-! ## Theorems -/

/-- C1. The spec claims two filter conditions on different keys are
ANDed (`age_gte=2&age_lt=5` constrains to `2 <= age < 5`); the code
comment "Finally and the where query" shows the same intent. The
source instead calls `query.where(...)` for each filter, and TypeORM's
`where` replaces all previously set conditions (also reusing the one
parameter name `value`), so only the LAST filter survives: the built
query's WHERE list holds only `entity.age < :value` with `value = 5`,
and the `age >= 2` condition is gone. -/
theorem filterQuery_where_overwrites_conjunction :
  filterQuery emptyQB (some [("age_gte", "2"), ("age_lt", "5")]) catManifest =
    .ok { selects := [], joins := [], wheres := ["entity.age < :value"],
          params := [("value", "5")], orderBys := [] } := by
  rfl

/-- The suffix search written as nested conditionals, for case
analysis. -/
theorem findOperatorSuffix_eq (key : String) :
  findOperatorSuffix key =
    cond (jsIncludes key "_in") (some (WhereOperator.inOp, "_in"))
    (cond (jsIncludes key "_like") (some (WhereOperator.like, "_like"))
    (cond (jsIncludes key "_ne") (some (WhereOperator.ne, "_ne"))
    (cond (jsIncludes key "_lte") (some (WhereOperator.lte, "_lte"))
    (cond (jsIncludes key "_lt") (some (WhereOperator.lt, "_lt"))
    (cond (jsIncludes key "_gte") (some (WhereOperator.gte, "_gte"))
    (cond (jsIncludes key "_gt") (some (WhereOperator.gt, "_gt"))
    (cond (jsIncludes key "_eq") (some (WhereOperator.eq, "_eq")) none))))))) := by
  rfl

/-- C5. The operator-suffix search tries the reversed declaration list,
so the longer suffixes win: a key containing `_gte` is never parsed as
the `gt` operator, and a key whose only matching suffixes are `_gt`
and `_gte` (the claim's substring situation) is parsed as `gte`. -/
theorem suffix_matching_longest_first :
  (∀ key : String, jsIncludes key "_gte" = true →
    ∀ op sfx, findOperatorSuffix key = some (op, sfx) → op ≠ WhereOperator.gt) ∧
  (∀ key : String,
    (∀ p ∈ whereOperatorKeySuffix, jsIncludes key p.2 = true → p.2 = "_gt" ∨ p.2 = "_gte") →
    jsIncludes key "_gte" = true →
    findOperatorSuffix key = some (WhereOperator.gte, "_gte")) := by
  constructor
  · intro key hgte op sfx hfind
    rw [findOperatorSuffix_eq] at hfind
    cases h1 : jsIncludes key "_in" <;> simp only [h1, cond] at hfind
    · cases h2 : jsIncludes key "_like" <;> simp only [h2, cond] at hfind
      · cases h3 : jsIncludes key "_ne" <;> simp only [h3, cond] at hfind
        · cases h4 : jsIncludes key "_lte" <;> simp only [h4, cond] at hfind
          · cases h5 : jsIncludes key "_lt" <;> simp only [h5, cond] at hfind
            · simp only [hgte, cond] at hfind
              simp only [Option.some.injEq, Prod.mk.injEq] at hfind
              exact hfind.1 ▸ (by decide)
            · simp only [Option.some.injEq, Prod.mk.injEq] at hfind
              exact hfind.1 ▸ (by decide)
          · simp only [Option.some.injEq, Prod.mk.injEq] at hfind
            exact hfind.1 ▸ (by decide)
        · simp only [Option.some.injEq, Prod.mk.injEq] at hfind
          exact hfind.1 ▸ (by decide)
      · simp only [Option.some.injEq, Prod.mk.injEq] at hfind
        exact hfind.1 ▸ (by decide)
    · simp only [Option.some.injEq, Prod.mk.injEq] at hfind
      exact hfind.1 ▸ (by decide)
  · intro key honly hgte
    have h1 : jsIncludes key "_in" = false := by
      cases h : jsIncludes key "_in"
      · rfl
      · exact absurd (honly (WhereOperator.inOp, "_in") (by decide) h) (by decide)
    have h2 : jsIncludes key "_like" = false := by
      cases h : jsIncludes key "_like"
      · rfl
      · exact absurd (honly (WhereOperator.like, "_like") (by decide) h) (by decide)
    have h3 : jsIncludes key "_ne" = false := by
      cases h : jsIncludes key "_ne"
      · rfl
      · exact absurd (honly (WhereOperator.ne, "_ne") (by decide) h) (by decide)
    have h4 : jsIncludes key "_lte" = false := by
      cases h : jsIncludes key "_lte"
      · rfl
      · exact absurd (honly (WhereOperator.lte, "_lte") (by decide) h) (by decide)
    have h5 : jsIncludes key "_lt" = false := by
      cases h : jsIncludes key "_lt"
      · rfl
      · exact absurd (honly (WhereOperator.lt, "_lt") (by decide) h) (by decide)
    rw [findOperatorSuffix_eq, h1, h2, h3, h4, h5, hgte]
    rfl

/-- Witness for C5 at the concrete key `age_gte`. -/
theorem suffix_matching_longest_first_witness :
  findOperatorSuffix "age_gte" = some (WhereOperator.gte, "_gte") :=
  suffix_matching_longest_first.2 "age_gte" (by decide) (by decide)

/-- C3, counterexample. `getVisibleProps` filters only on the property
NAME `password`, not on the Password type: for an entity with a
non-hidden password-typed property `pin`, the selected column list of
a read query contains `entity.pin`, so the claim that password-typed
properties are never selectable is false on the code. -/
theorem getVisibleProps_includes_password_typed :
  pinProp ∈ deviceManifest.properties ∧
  pinProp.type = PropType.Password ∧
  getVisibleProps deviceManifest.properties "entity" false = ["entity.id", "entity.pin"] := by
  refine ⟨by decide, by decide, by rfl⟩

/-- Left-cancellation of string concatenation. -/
theorem string_append_left_cancel {a x y : String} (h : a ++ x = a ++ y) : x = y := by
  apply String.ext
  have hd := congrArg String.data h
  rw [String.data_append, String.data_append] at hd
  exact List.append_cancel_left hd

/-- C3, amended. Every column selected by `getVisibleProps` is either
the id column or comes from a listed property whose NAME is not
`password` (and which is non-hidden unless `fullVersion`); in
particular a `password`-NAMED column is never selected, for any entity
and any `fullVersion`. Password-TYPED properties under another name
are not specially excluded. -/
theorem getVisibleProps_excludes_password_named :
  (∀ (props : List PropertyManifest) (al : String) (fullVersion : Bool) (s : String),
    s ∈ getVisibleProps props al fullVersion →
    s = al ++ ".id" ∨
      ∃ p ∈ props, s = al ++ "." ++ p.name ∧ p.name ≠ "password" ∧
        (fullVersion = true ∨ p.hidden = false)) ∧
  (∀ (props : List PropertyManifest) (fullVersion : Bool),
    "entity.password" ∉ getVisibleProps props "entity" fullVersion) := by
  have hchar : ∀ (props : List PropertyManifest) (al : String) (fullVersion : Bool) (s : String),
      s ∈ getVisibleProps props al fullVersion →
      s = al ++ ".id" ∨
        ∃ p ∈ props, s = al ++ "." ++ p.name ∧ p.name ≠ "password" ∧
          (fullVersion = true ∨ p.hidden = false) := by
    intro props al fullVersion s hs
    simp only [getVisibleProps, List.mem_cons, List.mem_map, List.mem_filter] at hs
    rcases hs with h | ⟨p, ⟨⟨hp, hname⟩, hvis⟩, rfl⟩
    · exact Or.inl h
    · refine Or.inr ⟨p, hp, rfl, ?_, ?_⟩
      · simpa using hname
      · rcases Bool.or_eq_true _ _ |>.mp hvis with h | h
        · exact Or.inl h
        · exact Or.inr (by simpa using h)
  refine ⟨hchar, ?_⟩
  intro props fullVersion hmem
  rcases hchar props "entity" fullVersion _ hmem with h | ⟨p, _, heq, hname, _⟩
  · have h' : ("entity" : String) ++ ".password" = "entity" ++ ".id" := by
      calc ("entity" : String) ++ ".password" = "entity.password" := by rfl
        _ = "entity" ++ ".id" := h
    have hpw : (".password" : String) = ".id" := string_append_left_cancel h'
    exact absurd hpw (by decide)
  · have h' : ("entity." : String) ++ "password" = "entity." ++ p.name := by
      calc ("entity." : String) ++ "password" = "entity.password" := by rfl
        _ = "entity" ++ "." ++ p.name := heq
        _ = "entity." ++ p.name := by rw [show ("entity" : String) ++ "." = "entity." from rfl]
    have hpw : ("password" : String) = p.name := string_append_left_cancel h'
    exact hname hpw.symm

/-- Witness for C3's amended theorem at a concrete selected column. -/
theorem getVisibleProps_excludes_password_named_witness :
  ("entity.name" = "entity" ++ ".id" ∨
    ∃ p ∈ [nameProp, ageProp], "entity.name" = "entity" ++ "." ++ p.name ∧
      p.name ≠ "password" ∧ (false = true ∨ p.hidden = false)) ∧
  "entity.password" ∉ getVisibleProps [nameProp, ageProp] "entity" false :=
  ⟨getVisibleProps_excludes_password_named.1 [nameProp, ageProp] "entity" false "entity.name"
      (by decide),
   getVisibleProps_excludes_password_named.2 [nameProp, ageProp] false⟩

/-- C4, counterexample. For a dotted filter key only the FIRST segment
is validated against the relationship names; the tail is never checked
against the target entity. The key `owner.bogus_eq` names no existing
relation path (`Owner` has no property `bogus`), yet `filterQuery`
accepts it and resolves it to `entityOwner.bogus` instead of rejecting
with a bad request. -/
theorem filterQuery_accepts_unchecked_relation_tail :
  (ownerManifest.properties.all (fun p => p.name != "bogus")) = true ∧
  ownerRel.targetClassName = ownerManifest.className ∧
  applyFilterEntry catWithOwner emptyQB "owner.bogus_eq" "1" =
    .ok { selects := [], joins := [], wheres := ["entityOwner.bogus = :value"],
          params := [("value", "1")], orderBys := [] } := by
  refine ⟨by decide, by decide, by rfl⟩

/-- C4, amended. One filter key is processed as follows: a key without
an operator suffix is rejected; after stripping the suffix, the key is
rejected with a bad request exactly when the remaining name is neither
an existing non-hidden property nor a dotted path whose FIRST segment
names an existing relationship; when the first segment matches a
relationship the key is accepted with no validation of the remaining
path (and a plain matching non-hidden property is accepted as well) —
except that under the `in` operator the (boolean-normalized) value
must parse as a bracketed JSON list: a malformed in-list raises an
uncaught `SyntaxError` via `JSON.parse`, not a bad request. -/
theorem filterQuery_key_validation (em : EntityManifest) (q : SelectQB) (key value : String) :
  (findOperatorSuffix key = none →
    applyFilterEntry em q key value =
      .error (.badRequestMsg "Query param key should include an operator suffix")) ∧
  (∀ op sfx, findOperatorSuffix key = some (op, sfx) →
    em.properties.find? (fun p => p.name == jsRemoveFirst key sfx && !p.hidden) = none →
    em.relationships.find?
        (fun r => r.name == ((jsSplit (jsRemoveFirst key sfx) '.').headD "")) = none →
    applyFilterEntry em q key value =
      .error (.badRequestMsg
        ("Property " ++ jsRemoveFirst key sfx ++ " does not exist in " ++ em.className))) ∧
  (∀ op sfx r, findOperatorSuffix key = some (op, sfx) →
    em.relationships.find?
        (fun r' => r'.name == ((jsSplit (jsRemoveFirst key sfx) '.').headD "")) = some r →
    (op ≠ WhereOperator.inOp → ∃ q', applyFilterEntry em q key value = .ok q') ∧
    (op = WhereOperator.inOp →
      (jsonTextValid ("[" ++ normalizedFilterValue
          (em.properties.find? (fun p => p.name == jsRemoveFirst key sfx && !p.hidden))
          value ++ "]") = true →
        ∃ q', applyFilterEntry em q key value = .ok q') ∧
      (jsonTextValid ("[" ++ normalizedFilterValue
          (em.properties.find? (fun p => p.name == jsRemoveFirst key sfx && !p.hidden))
          value ++ "]") = false →
        applyFilterEntry em q key value = .error (.syntaxError "Unexpected token in JSON")))) ∧
  (∀ op sfx p, findOperatorSuffix key = some (op, sfx) →
    em.relationships.find?
        (fun r' => r'.name == ((jsSplit (jsRemoveFirst key sfx) '.').headD "")) = none →
    em.properties.find? (fun p' => p'.name == jsRemoveFirst key sfx && !p'.hidden) = some p →
    (op ≠ WhereOperator.inOp → ∃ q', applyFilterEntry em q key value = .ok q') ∧
    (op = WhereOperator.inOp →
      (jsonTextValid ("[" ++ normalizedFilterValue (some p) value ++ "]") = true →
        ∃ q', applyFilterEntry em q key value = .ok q') ∧
      (jsonTextValid ("[" ++ normalizedFilterValue (some p) value ++ "]") = false →
        applyFilterEntry em q key value = .error (.syntaxError "Unexpected token in JSON")))) := by
  refine ⟨?_, ?_, ?_, ?_⟩
  · intro h
    simp only [applyFilterEntry, h]
  · intro op sfx hf hp hr
    simp only [applyFilterEntry, hf, hp, hr, Option.isNone_none, Bool.and_self]
    simp
  · intro op sfx r hf hr
    refine ⟨?_, ?_⟩
    · intro hop
      simp only [applyFilterEntry, hf, hr, Option.isNone_some, Bool.and_false]
      have hop' : (op == WhereOperator.inOp) = false := by simpa using hop
      simp [hop']
    · intro hop
      subst hop
      constructor
      · intro hvalid
        simp only [applyFilterEntry, hf, hr, Option.isNone_some, Bool.and_false]
        simp [hvalid]
      · intro hinvalid
        simp only [applyFilterEntry, hf, hr, Option.isNone_some, Bool.and_false]
        simp [hinvalid]
  · intro op sfx p hf hr hp
    refine ⟨?_, ?_⟩
    · intro hop
      simp only [applyFilterEntry, hf, hp, hr, Option.isNone_some, Option.isNone_none,
        Bool.false_and]
      have hop' : (op == WhereOperator.inOp) = false := by simpa using hop
      simp [hop']
    · intro hop
      subst hop
      constructor
      · intro hvalid
        simp only [applyFilterEntry, hf, hp, hr, Option.isNone_some, Option.isNone_none,
          Bool.false_and]
        simp [hvalid]
      · intro hinvalid
        simp only [applyFilterEntry, hf, hp, hr, Option.isNone_some, Option.isNone_none,
          Bool.false_and]
        simp [hinvalid]

/-- Witness for C4's amended theorem: a key without a suffix is
rejected; the relation-path key `owner.bogus_eq` is accepted; the
in-operator key `age_in` is accepted for the well-formed list `1,2`
and raises the uncaught SyntaxError for the malformed list `red`. -/
theorem filterQuery_key_validation_witness :
  applyFilterEntry catWithOwner emptyQB "nosuffixkey" "1" =
    .error (.badRequestMsg "Query param key should include an operator suffix") ∧
  (∃ q', applyFilterEntry catWithOwner emptyQB "owner.bogus_eq" "1" = .ok q') ∧
  (∃ q', applyFilterEntry catWithOwner emptyQB "age_in" "1,2" = .ok q') ∧
  applyFilterEntry catWithOwner emptyQB "age_in" "red" =
    .error (.syntaxError "Unexpected token in JSON") :=
  ⟨(filterQuery_key_validation catWithOwner emptyQB "nosuffixkey" "1").1 (by decide),
   ((filterQuery_key_validation catWithOwner emptyQB "owner.bogus_eq" "1").2.2.1
     WhereOperator.eq "_eq" ownerRel (by decide) (by decide)).1 (by decide),
   (((filterQuery_key_validation catWithOwner emptyQB "age_in" "1,2").2.2.2
     WhereOperator.inOp "_in" ageProp (by decide) (by decide) (by decide)).2 rfl).1 (by decide),
   (((filterQuery_key_validation catWithOwner emptyQB "age_in" "red").2.2.2
     WhereOperator.inOp "_in" ageProp (by decide) (by decide) (by decide)).2 rfl).2 (by decide)⟩

/-- One unfolding step of `loadRelations` on `A` of the eager cycle:
the eager relation is always processed and the recursion descends into
`B`'s relations. -/
theorem loadRelations_eager_stepA (n : Nat) (q : SelectQB) (req : Option (List String))
    (al : String) :
  loadRelations envEager (n + 1) q entA_eager.relationships req al =
    (match loadRelations envEager n
        (qbAddSelect (qbLeftJoin q (al ++ "." ++ "b") (camelize [al, "b"]))
          (getVisibleProps entB_eager.properties (camelize [al, "b"]) false))
        entB_eager.relationships (pruneRequested req "b") (camelize [al, "b"]) with
      | some (Except.ok q') => loadRelations envEager n q' [] req al
      | other => other) := rfl

/-- One unfolding step of `loadRelations` on `B` of the eager cycle. -/
theorem loadRelations_eager_stepB (n : Nat) (q : SelectQB) (req : Option (List String))
    (al : String) :
  loadRelations envEager (n + 1) q entB_eager.relationships req al =
    (match loadRelations envEager n
        (qbAddSelect (qbLeftJoin q (al ++ "." ++ "a") (camelize [al, "a"]))
          (getVisibleProps entA_eager.properties (camelize [al, "a"]) false))
        entA_eager.relationships (pruneRequested req "a") (camelize [al, "a"]) with
      | some (Except.ok q') => loadRelations envEager n q' [] req al
      | other => other) := rfl

/-- On the eager cycle the relation loader runs out of any amount of
fuel, whatever the query state, requested list and alias. -/
theorem loadRelations_eager_cycle_none (fuel : Nat) :
  (∀ (q : SelectQB) (req : Option (List String)) (al : String),
    loadRelations envEager fuel q entA_eager.relationships req al = none) ∧
  (∀ (q : SelectQB) (req : Option (List String)) (al : String),
    loadRelations envEager fuel q entB_eager.relationships req al = none) := by
  induction fuel with
  | zero => exact ⟨fun _ _ _ => rfl, fun _ _ _ => rfl⟩
  | succ n ih =>
    constructor
    · intro q req al
      rw [loadRelations_eager_stepA, ih.2]
    · intro q req al
      rw [loadRelations_eager_stepB, ih.1]

/-- C2, counterexample. The claim quantifies over every combination of
eager flags, but for the cyclic graph in which `A`'s relation to `B`
and `B`'s relation to `A` are both eager, `loadRelations` recurses
unconditionally (an eager relation is processed regardless of the
requested-path list, which is the only thing the recursion shrinks):
no fuel ever suffices, i.e. the source recursion does not terminate. -/
theorem loadRelations_eager_cycle_diverges :
  ¬ ∃ fuel : Nat,
    (loadRelations envEager fuel emptyQB entA_eager.relationships none "entity").isSome = true := by
  rintro ⟨fuel, h⟩
  rw [(loadRelations_eager_cycle_none fuel).1] at h
  simp at h

/-- Filtering out a present element strictly shrinks a list. -/
theorem length_filter_ne_lt (rs : List String) (name : String) (h : name ∈ rs) :
    (rs.filter (fun r => r != name)).length < rs.length := by
  induction rs with
  | nil => cases h
  | cons a as ih =>
    by_cases ha : a = name
    · subst ha
      have hle := List.length_filter_le (fun r => r != a) as
      have hstep : (a :: as).filter (fun r => r != a) = as.filter (fun r => r != a) := by
        simp [List.filter_cons]
      rw [hstep]
      simp only [List.length_cons]
      omega
    · rcases List.mem_cons.mp h with h' | h'
      · exact absurd h'.symm ha
      · have hlt := ih h'
        have hba : (a != name) = true := by simpa using ha
        have hstep : (a :: as).filter (fun r => r != name)
            = a :: as.filter (fun r => r != name) := by
          simp [List.filter_cons, hba]
        rw [hstep]
        simp only [List.length_cons]
        omega

/-- Pruning after traversing a requested relation strictly shrinks the
requested list. -/
theorem pruneRequested_size_lt (rs : List String) (name : String) (h : name ∈ rs) :
    reqSize (pruneRequested (some rs) name) < rs.length := by
  have heq : reqSize (pruneRequested (some rs) name)
      = (rs.filter (fun r => r != name)).length := by
    simp [pruneRequested, reqSize]
  rw [heq]
  exact length_filter_ne_lt rs name h

/-- C2, amended. When no relation of the graph is eager, every
recursive descent of `loadRelations` consumes an element of the
requested-relations list, so the recursion terminates: fuel
`rels.length + 1 + reqSize req * (R + 1)` always suffices, where `R`
bounds the relationship count of every entity. Moreover, on the
NON-eager cyclic graph A-B-A, requesting `b,b.a` (the relation `b`
itself must be listed: `b.a` alone matches nothing) hydrates exactly
one level of `a` under `b` and stops. -/
theorem loadRelations_terminates_without_eager :
  (∀ (env : List EntityManifest) (R : Nat),
    (∀ m ∈ env, ∀ r ∈ m.relationships, r.eager = false) →
    (∀ m ∈ env, m.relationships.length ≤ R) →
    ∀ (d : Nat) (req : Option (List String)) (al : String)
      (rels : List RelationshipManifest) (q : SelectQB) (fuel : Nat),
      (∀ r ∈ rels, r.eager = false) →
      reqSize req ≤ d →
      rels.length + 1 + d * (R + 1) ≤ fuel →
      (loadRelations env fuel q rels req al).isSome = true) ∧
  loadRelations envCycle 6 emptyQB entA2.relationships (some ["b", "b.a"]) "entity" =
    some (.ok { selects := ["entityB.id", "entityB.name", "entityBA.id", "entityBA.name"],
                joins := [("entity.b", "entityB"), ("entityB.a", "entityBA")],
                wheres := [], params := [], orderBys := [] }) := by
  constructor
  · intro env R henv hlen d
    induction d using Nat.strong_induction_on with
    | _ d ihd =>
      intro req al rels
      induction rels with
      | nil =>
        intro q fuel _ _ hfuel
        obtain ⟨fuel', rfl⟩ : ∃ fuel', fuel = fuel' + 1 := ⟨fuel - 1, by omega⟩
        rfl
      | cons rel rest ihrest =>
        intro q fuel hrels hreq hfuel
        obtain ⟨fuel', rfl⟩ : ∃ fuel', fuel = fuel' + 1 := ⟨fuel - 1, by omega⟩
        have heag : rel.eager = false := hrels rel (List.mem_cons_self rel rest)
        have hrest : ∀ r ∈ rest, r.eager = false :=
          fun r hr => hrels r (List.mem_cons_of_mem _ hr)
        have hfuel' : rest.length + 1 + d * (R + 1) ≤ fuel' := by
          simp only [List.length_cons] at hfuel
          omega
        simp only [loadRelations]
        cases hcont : requestedContains req rel.name with
        | false =>
          simp only [heag, hcont, Bool.not_false, Bool.and_self]
          simp only [if_true]
          exact ihrest q fuel' hrest hreq hfuel'
        | true =>
          simp only [heag, hcont, Bool.not_false, Bool.not_true, Bool.and_false]
          rw [if_neg (by decide)]
          obtain ⟨rs, rfl⟩ : ∃ rs, req = some rs := by
            cases req with
            | none => simp [requestedContains] at hcont
            | some rs => exact ⟨rs, rfl⟩
          have hmem : rel.name ∈ rs := by simpa [requestedContains] using hcont
          cases htarget : envLookupByClass env rel.targetClassName with
          | none =>
            simp only [htarget]
            rfl
          | some target =>
            simp only [htarget]
            have htmem : target ∈ env := List.mem_of_find?_eq_some htarget
            cases hemp : target.relationships.isEmpty with
            | true =>
              simp only [hemp, if_true]
              exact ihrest _ fuel' hrest hreq hfuel'
            | false =>
              rw [if_neg (by decide)]
              have hd1 : 1 ≤ d := by
                by_contra hd0
                have hdz : d = 0 := by omega
                rw [hdz] at hreq
                have hrs : rs.length = 0 := by
                  have : reqSize (some rs) = rs.length := rfl
                  omega
                rw [List.length_eq_zero] at hrs
                subst hrs
                cases hmem
              obtain ⟨d', rfl⟩ : ∃ d', d = d' + 1 := ⟨d - 1, by omega⟩
              have hlt := pruneRequested_size_lt rs rel.name hmem
              have hsub : reqSize (pruneRequested (some rs) rel.name) ≤ d' := by
                have hr : reqSize (some rs) = rs.length := rfl
                omega
              have htlen : target.relationships.length ≤ R := hlen target htmem
              have htne : ∀ r ∈ target.relationships, r.eager = false := henv target htmem
              have hmul : (d' + 1) * (R + 1) = d' * (R + 1) + (R + 1) := by ring
              have hfueldesc : target.relationships.length + 1 + d' * (R + 1) ≤ fuel' := by
                rw [hmul] at hfuel'
                omega
              have hdesc := ihd d' (by omega) (pruneRequested (some rs) rel.name)
                (camelize [al, rel.name]) target.relationships
                (qbAddSelect (qbLeftJoin q (al ++ "." ++ rel.name) (camelize [al, rel.name]))
                  (getVisibleProps target.properties (camelize [al, rel.name]) false))
                fuel' htne hsub hfueldesc
              cases hval : loadRelations env fuel'
                  (qbAddSelect (qbLeftJoin q (al ++ "." ++ rel.name) (camelize [al, rel.name]))
                    (getVisibleProps target.properties (camelize [al, rel.name]) false))
                  target.relationships (pruneRequested (some rs) rel.name)
                  (camelize [al, rel.name]) with
              | none =>
                rw [hval] at hdesc
                simp at hdesc
              | some v =>
                cases v with
                | error e =>
                  simp only [hval]
                  rfl
                | ok q' =>
                  simp only [hval]
                  exact ihrest q' fuel' hrest hreq hfuel'
  · rfl

/-- Witness for C2's amended theorem: on the concrete non-eager cyclic
graph, the bound `rels.length + 1 + reqSize * (R + 1) = 6` makes the
run succeed. -/
theorem loadRelations_terminates_without_eager_witness :
  (loadRelations envCycle 6 emptyQB entA2.relationships (some ["b", "b.a"]) "entity").isSome
    = true :=
  loadRelations_terminates_without_eager.1 envCycle 1 (by decide) (by decide) 2
    (some ["b", "b.a"]) "entity" entA2.relationships emptyQB 6 (by decide) (by decide) (by decide)

/-! ## Pagination arguments of findAll (C8, C10) -/

/-- C8, counterexample. `findAll` passes
`parseInt(queryParams.page, 10) || 1` to pagination with NO `max(1, -)`
clamp: for `page = "-5"` the current page handed to the paginator is
`-5`, while the spec's formula gives `1`. -/
theorem findAll_negative_page_not_clamped :
  findAll [catManifest] "cats" (some [("page", "-5")]) false 1 =
    some (.ok { query := { selects := ["entity.id", "entity.name", "entity.age"],
                           joins := [], wheres := [], params := [],
                           orderBys := [("entity.id", true)] },
                currentPage := -5, resultsPerPage := 20 }) ∧
  specCurrentPage (some "-5") = 1 ∧ ¬ ((1 : Int) ≤ -5) := by
  refine ⟨by rfl, by decide, by decide⟩

/-- C8, amended. The current page `findAll` hands to pagination is
`parseInt(page, 10) || 1` (1 for a missing, non-numeric or zero page),
with no lower clamp: it agrees with the spec's `max(1, parseInt(page)
or 1)` exactly when the page does not parse to a negative integer, and
is the unclamped negative number otherwise. -/
theorem findAll_current_page_formula :
  ∀ (env : List EntityManifest) (slug : String) (qp : List (String × String))
    (fullVersion : Bool) (fuel : Nat) (args : PaginateArgs),
    findAll env slug (some qp) fullVersion fuel = some (.ok args) →
    args.currentPage = jsOrInt ((qp.lookup "page").bind parseIntJS) 1 ∧
    ((∀ n : Int, (qp.lookup "page").bind parseIntJS = some n → 0 ≤ n) →
      args.currentPage = specCurrentPage (qp.lookup "page")) := by
  intro env slug qp fullVersion fuel args h
  have hpage : args.currentPage = jsOrInt ((qp.lookup "page").bind parseIntJS) 1 := by
    simp only [findAll] at h
    split at h
    · simp at h
    · split at h
      · exact absurd h (by simp)
      · simp at h
      · split at h
        · simp at h
        · split at h
          · simp at h
          · simp only [Option.some.injEq, Except.ok.injEq] at h
            rw [← h]
  refine ⟨hpage, ?_⟩
  intro hnneg
  rw [hpage]
  cases hp : (qp.lookup "page").bind parseIntJS with
  | none => simp [specCurrentPage, jsOrInt, hp]
  | some n =>
    have hn := hnneg n hp
    by_cases hz : n = 0
    · subst hz
      simp [specCurrentPage, jsOrInt, hp]
    · have h1 : (1 : Int) ≤ n := by omega
      simp only [specCurrentPage, jsOrInt, hp, if_neg hz]
      exact (max_eq_right h1).symm

/-- Witness for C8's amended theorem at the concrete page `7`, where
the unclamped and the clamped formulas agree. -/
theorem findAll_current_page_formula_witness :
  ∃ args : PaginateArgs,
    findAll [catManifest] "cats" (some [("page", "7")]) false 1 = some (.ok args) ∧
    args.currentPage = specCurrentPage ([("page", "7")].lookup "page") := by
  refine ⟨{ query := { selects := ["entity.id", "entity.name", "entity.age"],
                       joins := [], wheres := [], params := [],
                       orderBys := [("entity.id", true)] },
            currentPage := 7, resultsPerPage := 20 }, rfl, ?_⟩
  refine (findAll_current_page_formula [catManifest] "cats" [("page", "7")] false 1 _ rfl).2 ?_
  intro n hn
  have h7 : some (7 : Int) = some n := hn
  cases h7
  decide

/-- C10. With `queryParams` omitted, `findAll` gets past every earlier
step (`relations`, the filters and `orderBy` are all optional-guarded)
and then reads `queryParams.page` unguarded in the pagination step, so
the call ends in a runtime `TypeError` instead of returning a default
first page. -/
theorem findAll_without_query_params_type_error :
  ∀ (env : List EntityManifest) (slug : String) (em : EntityManifest) (fullVersion : Bool)
    (fuel : Nat) (q1 : SelectQB),
    envLookupBySlug env slug = some em →
    loadRelations env fuel (qbSelect emptyQB (getVisibleProps em.properties "entity" fullVersion))
      em.relationships none "entity" = some (.ok q1) →
    findAll env slug none fullVersion fuel =
      some (.error (.runtimeTypeError "Cannot read properties of undefined")) := by
  intro env slug em fullVersion fuel q1 hm hload
  simp only [findAll, hm]
  simp only [Option.none_bind, Option.map_none']
  rw [hload]
  rfl

/-- Witness for C10 on a concrete entity. -/
theorem findAll_without_query_params_type_error_witness :
  findAll [catManifest] "cats" none false 1 =
    some (.error (.runtimeTypeError "Cannot read properties of undefined")) :=
  findAll_without_query_params_type_error [catManifest] "cats" catManifest false 1
    (qbSelect emptyQB (getVisibleProps catManifest.properties "entity" false)) rfl rfl

/-! ## Delete theorems (C6) -/

/-- When some one-to-many relation still has related items, the check
of `delete` throws the bad request naming a blocking relation. -/
theorem checkOneToMany_error_of_blocking (item : Row) :
  ∀ rels : List RelationshipManifest,
    (∃ r ∈ rels, ((item.relationItems.lookup r.name).getD []) ≠ []) →
    ∃ r ∈ rels, ((item.relationItems.lookup r.name).getD []) ≠ [] ∧
      checkOneToMany item rels =
        .error (.badRequestMsg ("Cannot delete item as it has related " ++ r.name ++
          ". Please delete the related items first.")) := by
  intro rels
  induction rels with
  | nil => rintro ⟨r, hr, _⟩; cases hr
  | cons r rest ih =>
    rintro ⟨r', hr', hne'⟩
    cases hemp : ((item.relationItems.lookup r.name).getD []).isEmpty with
    | false =>
      refine ⟨r, List.mem_cons_self r rest, ?_, ?_⟩
      · intro hnil
        rw [hnil] at hemp
        simp at hemp
      · simp only [checkOneToMany, hemp]
        rfl
    | true =>
      have hrempty : ((item.relationItems.lookup r.name).getD []) = [] := by
        simpa using hemp
      have hrest : ∃ x ∈ rest, ((item.relationItems.lookup x.name).getD []) ≠ [] := by
        rcases List.mem_cons.mp hr' with h | h
        · subst h
          exact absurd hrempty hne'
        · exact ⟨r', h, hne'⟩
      rcases ih hrest with ⟨x, hx, hxne, hxeq⟩
      refine ⟨x, List.mem_cons_of_mem r hx, hxne, ?_⟩
      simp only [checkOneToMany, hemp, if_true]
      exact hxeq

/-- When every one-to-many relation is empty, the check passes. -/
theorem checkOneToMany_ok_of_empty (item : Row) :
  ∀ rels : List RelationshipManifest,
    (∀ r ∈ rels, ((item.relationItems.lookup r.name).getD []) = []) →
    checkOneToMany item rels = .ok () := by
  intro rels
  induction rels with
  | nil => intro _; rfl
  | cons r rest ih =>
    intro h
    have hr : ((item.relationItems.lookup r.name).getD []) = [] :=
      h r (List.mem_cons_self r rest)
    have hemp : ((item.relationItems.lookup r.name).getD []).isEmpty = true := by
      rw [hr]; rfl
    simp only [checkOneToMany, hemp, if_true]
    exact ih (fun x hx => h x (List.mem_cons_of_mem r hx))

/-- Dropping the uniquely-identified row shortens the table by exactly
one. -/
theorem filter_ne_id_length (id : Int) :
  ∀ table : List Row,
    (table.map (fun row => row.id)).Nodup →
    (∃ item, table.find? (fun row => row.id == id) = some item) →
    (table.filter (fun row => !(row.id == id))).length + 1 = table.length := by
  intro table
  induction table with
  | nil => rintro _ ⟨item, hfind⟩; simp at hfind
  | cons row rest ih =>
    rintro hnd ⟨item, hfind⟩
    simp only [List.map_cons, List.nodup_cons] at hnd
    by_cases hid : row.id = id
    · have hrest : rest.filter (fun r => !(r.id == id)) = rest := by
        rw [List.filter_eq_self]
        intro a ha
        have hane : a.id ≠ id := by
          intro haid
          apply hnd.1
          have hra : row.id = a.id := by rw [hid, haid]
          rw [hra]
          exact List.mem_map_of_mem _ ha
        simpa using hane
      have hhead : (row.id == id) = true := by simpa using hid
      simp only [List.filter_cons, hhead, Bool.not_true]
      simp only [Bool.false_eq_true, if_false]
      rw [hrest]
      simp
    · have hhead : (row.id == id) = false := by simpa using hid
      have hfind' : rest.find? (fun r => r.id == id) = some item := by
        simpa [List.find?, hhead] using hfind
      have := ih hnd.2 ⟨item, hfind'⟩
      simp only [List.filter_cons, hhead, Bool.not_false, if_true, List.length_cons]
      omega

/-- C6. On an existing item, `delete` with at least one populated
one-to-many relation returns a bad request naming a blocking relation
and leaves the table untouched; with all one-to-many relations empty
it deletes exactly the row with that id (every other row survives, and
under unique ids the table shrinks by exactly one). -/
theorem delete_blocks_on_one_to_many :
  ∀ (env : List EntityManifest) (entitySlug : String) (em : EntityManifest)
    (table : List Row) (id : Int) (item : Row),
    envLookupBySlug env entitySlug = some em →
    table.find? (fun row => row.id == id) = some item →
    ((∃ r ∈ em.relationships.filter (fun r => r.type == RelationType.oneToMany),
        ((item.relationItems.lookup r.name).getD []) ≠ []) →
      ∃ r ∈ em.relationships.filter (fun r => r.type == RelationType.oneToMany),
        ((item.relationItems.lookup r.name).getD []) ≠ [] ∧
        delete env table entitySlug id =
          (.error (.badRequestMsg ("Cannot delete item as it has related " ++ r.name ++
            ". Please delete the related items first.")), table)) ∧
    ((∀ r ∈ em.relationships.filter (fun r => r.type == RelationType.oneToMany),
        ((item.relationItems.lookup r.name).getD []) = []) →
      delete env table entitySlug id = (.ok (), table.filter (fun row => !(row.id == id))) ∧
      (∀ row ∈ table, row.id ≠ id → row ∈ table.filter (fun row => !(row.id == id))) ∧
      ((table.map (fun row => row.id)).Nodup →
        (table.filter (fun row => !(row.id == id))).length + 1 = table.length)) := by
  intro env entitySlug em table id item hm hfind
  constructor
  · intro hblock
    rcases checkOneToMany_error_of_blocking item _ hblock with ⟨r, hr, hne, hchk⟩
    refine ⟨r, hr, hne, ?_⟩
    simp only [delete, hm, hfind, hchk]
  · intro hempty
    have hchk := checkOneToMany_ok_of_empty item _ hempty
    refine ⟨?_, ?_, ?_⟩
    · simp only [delete, hm, hfind, hchk]
    · intro row hrow hne
      rw [List.mem_filter]
      exact ⟨hrow, by simpa using hne⟩
    · intro hnd
      exact filter_ne_id_length id table hnd ⟨item, hfind⟩

/-- Witness for C6 at concrete tables: the populated relation blocks
the delete and keeps the table; the empty relation lets the delete
remove exactly the addressed row. -/
theorem delete_blocks_on_one_to_many_witness :
  (∃ r ∈ ownersManifest.relationships.filter (fun r => r.type == RelationType.oneToMany),
      ((rowBlocked.relationItems.lookup r.name).getD []) ≠ [] ∧
      delete [ownersManifest] [rowBlocked] "owners" 1 =
        (.error (.badRequestMsg ("Cannot delete item as it has related " ++ r.name ++
          ". Please delete the related items first.")), [rowBlocked])) ∧
  delete [ownersManifest] [rowFree, rowOther] "owners" 1 =
    (.ok (), ([rowFree, rowOther].filter (fun row => !(row.id == 1)))) :=
  ⟨(delete_blocks_on_one_to_many [ownersManifest] "owners" ownersManifest [rowBlocked] 1
      rowBlocked rfl rfl).1
      ⟨{ name := "cats", type := RelationType.oneToMany, eager := false,
          owningSide := false, targetClassName := "Cat" }, by decide, by decide⟩,
   ((delete_blocks_on_one_to_many [ownersManifest] "owners" ownersManifest [rowFree, rowOther]
      1 rowFree rfl rfl).2 (by decide)).1⟩

/-! ## Store theorems (C7) -/

/-- C7. `store` validates the candidate entity (dto plus hashed
password) before any write: a non-empty error list is thrown as a bad
request carrying exactly that structured list, with the table
unchanged; an empty error list lets the merged entity be persisted and
returned. -/
theorem store_validates_before_persisting :
  ∀ (env : List EntityManifest) (entitySlug : String) (em : EntityManifest)
    (validate : Fields → EntityManifest → List ValidationError)
    (hash : String → String) (fetchRel : Fields → List RelationshipManifest → Fields)
    (itemDto : Fields) (table : List Fields),
    envLookupBySlug env entitySlug = some em →
    (validate (mkCandidate em hash itemDto) em ≠ [] →
      store env validate hash fetchRel entitySlug itemDto table =
        (.error (.badRequestErrors (validate (mkCandidate em hash itemDto) em)), table)) ∧
    (validate (mkCandidate em hash itemDto) em = [] →
      store env validate hash fetchRel entitySlug itemDto table =
        (.ok (mergeFields (mkCandidate em hash itemDto)
                (fetchRel itemDto (storeRelationFilter em))),
         table ++ [mergeFields (mkCandidate em hash itemDto)
                (fetchRel itemDto (storeRelationFilter em))])) := by
  intro env entitySlug em validate hash fetchRel itemDto table hm
  constructor
  · intro herr
    cases hv : validate (mkCandidate em hash itemDto) em with
    | nil => exact absurd hv herr
    | cons e es =>
      simp only [store, hm, hv]
      rfl
  · intro hemp
    simp only [store, hm, hemp]
    rfl

/-- Witness for C7: a failing validator makes `store` throw the error
list and persist nothing; a passing validator persists the entity. -/
theorem store_validates_before_persisting_witness :
  store [catManifest] rejectingValidate tagHash noRelations "cats" [("name", "Tom")] [] =
    (.error (.badRequestErrors
      [{ property := "name", constraints := [("isNotEmpty", "name should not be empty")] }]), []) ∧
  store [catManifest] acceptingValidate tagHash noRelations "cats" [("name", "Tom")] [] =
    (.ok [("name", "Tom")], [[("name", "Tom")]]) :=
  ⟨(store_validates_before_persisting [catManifest] "cats" catManifest rejectingValidate
      tagHash noRelations [("name", "Tom")] [] rfl).1 (by decide),
   (store_validates_before_persisting [catManifest] "cats" catManifest acceptingValidate
      tagHash noRelations [("name", "Tom")] [] rfl).2 rfl⟩

/-! ## Schema-builder theorems (C9) -/

/-- Looking up the key of the head pair. -/
theorem lookup_cons_self {α : Type} (k : String) (v : α) (l : List (String × α)) :
    ((k, v) :: l).lookup k = some v := by
  simp [List.lookup]

/-- Looking up past a head pair with a different key. -/
theorem lookup_cons_ne {α : Type} (k : String) (kv : String × α) (l : List (String × α))
    (h : (k == kv.1) = false) : (kv :: l).lookup k = l.lookup k := by
  cases kv with
  | mk k1 v1 =>
    have h' : (k == k1) = false := h
    simp only [List.lookup, h']

/-- After the in-place replacement of an existing key, looking that key
up yields the new value. -/
theorem lookup_map_replace {α : Type} (k : String) (v : α) :
  ∀ l : List (String × α),
    l.any (fun kv => kv.1 == k) = true →
    (l.map (fun kv => if kv.1 == k then (k, v) else kv)).lookup k = some v := by
  intro l
  induction l with
  | nil => intro h; simp at h
  | cons kv rest ih =>
    intro hany
    simp only [List.any_cons, Bool.or_eq_true] at hany
    by_cases hk : (kv.1 == k) = true
    · rw [List.map_cons, if_pos hk]
      exact lookup_cons_self k v _
    · have hne : (k == kv.1) = false := by
        have hkk : ¬ kv.1 = k := by simpa using hk
        simp only [beq_eq_false_iff_ne, ne_eq]
        exact fun hcontra => hkk hcontra.symm
      rw [List.map_cons, if_neg hk, lookup_cons_ne k kv _ hne]
      rcases hany with h1 | h2
      · exact absurd h1 hk
      · exact ih h2

/-- Appending a fresh key makes it found by lookup. -/
theorem lookup_append_single {α : Type} (k : String) (v : α) :
  ∀ l : List (String × α),
    l.any (fun kv => kv.1 == k) = false →
    (l ++ [(k, v)]).lookup k = some v := by
  intro l
  induction l with
  | nil => intro _; exact lookup_cons_self k v []
  | cons kv rest ih =>
    intro hnone
    have hsplit : (kv.1 == k) = false ∧ rest.any (fun kv => kv.1 == k) = false := by
      constructor
      · cases h : (kv.1 == k) with
        | false => rfl
        | true => rw [List.any_cons, h] at hnone; simp at hnone
      · cases h : rest.any (fun kv => kv.1 == k) with
        | false => rfl
        | true => rw [List.any_cons, h] at hnone; simp at hnone
    have hne : (k == kv.1) = false := by
      have hkk : ¬ kv.1 = k := by simpa using hsplit.1
      simp only [beq_eq_false_iff_ne, ne_eq]
      exact fun hcontra => hkk hcontra.symm
    rw [List.cons_append, lookup_cons_ne k kv _ hne]
    exact ih hsplit.2

/-- `upsert` makes the written key map to the written value. -/
theorem lookup_upsert_self {α : Type} (l : List (String × α)) (k : String) (v : α) :
    (upsert l k v).lookup k = some v := by
  unfold upsert
  cases hany : l.any (fun kv => kv.1 == k) with
  | true =>
    rw [if_pos rfl]
    exact lookup_map_replace k v l hany
  | false =>
    rw [if_neg (by decide)]
    exact lookup_append_single k v l hany

/-- In-place replacement leaves other keys untouched. -/
theorem lookup_map_replace_ne {α : Type} (k k' : String) (v : α) (h : k' ≠ k) :
  ∀ l : List (String × α),
    (l.map (fun kv => if kv.1 == k then (k, v) else kv)).lookup k' = l.lookup k' := by
  intro l
  induction l with
  | nil => rfl
  | cons kv rest ih =>
    by_cases hk : (kv.1 == k) = true
    · have hkk : kv.1 = k := by simpa using hk
      have hne1 : (k' == k) = false := by
        simp only [beq_eq_false_iff_ne, ne_eq]
        exact h
      have hne2 : (k' == kv.1) = false := by rw [hkk]; exact hne1
      rw [List.map_cons, if_pos hk, lookup_cons_ne k' (k, v) _ hne1,
        lookup_cons_ne k' kv _ hne2]
      exact ih
    · rw [List.map_cons, if_neg hk]
      cases hh : (k' == kv.1) with
      | true =>
        cases kv with
        | mk k1 v1 =>
          have hh' : (k' == k1) = true := hh
          simp only [List.lookup, hh']
      | false =>
        rw [lookup_cons_ne k' kv _ hh, lookup_cons_ne k' kv _ hh]
        exact ih

/-- Appending a fresh key leaves other keys untouched. -/
theorem lookup_append_single_ne {α : Type} (k k' : String) (v : α) (h : k' ≠ k) :
  ∀ l : List (String × α),
    (l ++ [(k, v)]).lookup k' = l.lookup k' := by
  intro l
  induction l with
  | nil =>
    have hne : (k' == k) = false := by
      simp only [beq_eq_false_iff_ne, ne_eq]
      exact h
    rw [List.nil_append, lookup_cons_ne k' (k, v) _ hne]
  | cons kv rest ih =>
    rw [List.cons_append]
    cases hh : (k' == kv.1) with
    | true =>
      cases kv with
      | mk k1 v1 =>
        have hh' : (k' == k1) = true := hh
        simp only [List.lookup, hh']
    | false =>
      rw [lookup_cons_ne k' kv _ hh, lookup_cons_ne k' kv _ hh]
      exact ih

/-- `upsert` of one key leaves every other key untouched. -/
theorem lookup_upsert_ne {α : Type} (l : List (String × α)) (k k' : String) (v : α)
    (h : k' ≠ k) : (upsert l k v).lookup k' = l.lookup k' := by
  unfold upsert
  cases hany : l.any (fun kv => kv.1 == k) with
  | true =>
    rw [if_pos rfl]
    exact lookup_map_replace_ne k k' v h l
  | false =>
    rw [if_neg (by decide)]
    exact lookup_append_single_ne k k' v h l

/-- Folding the column upserts over properties that never mention a key
leaves that key's lookup unchanged. -/
theorem foldl_upsert_lookup_not_mem :
  ∀ (props : List PropertyManifest) (acc : List (String × ColumnModel)) (k : String),
    ¬ k ∈ props.map (fun p => p.name) →
    (props.foldl (fun a p => upsert a p.name (columnOfProp p)) acc).lookup k = acc.lookup k := by
  intro props
  induction props with
  | nil => intro acc k _; rfl
  | cons p ps ih =>
    intro acc k h
    simp only [List.map_cons, List.mem_cons, not_or] at h
    rw [List.foldl_cons, ih _ k h.2, lookup_upsert_ne _ _ _ _ h.1]

/-- Every key written by the property fold ends up mapped to a
nullable column. -/
theorem foldl_upsert_nullable :
  ∀ (props : List PropertyManifest) (acc : List (String × ColumnModel)) (k : String),
    k ∈ props.map (fun p => p.name) →
    ∃ col, (props.foldl (fun a p => upsert a p.name (columnOfProp p)) acc).lookup k = some col ∧
      col.nullable = true := by
  intro props
  induction props with
  | nil => intro acc k hk; simp at hk
  | cons p ps ih =>
    intro acc k hk
    rw [List.foldl_cons]
    by_cases h2 : k ∈ ps.map (fun p => p.name)
    · exact ih _ k h2
    · have hkp : k = p.name := by
        simp only [List.map_cons, List.mem_cons] at hk
        tauto
      subst hkp
      rw [foldl_upsert_lookup_not_mem ps _ _ h2, lookup_upsert_self]
      exact ⟨_, rfl, rfl⟩

/-- C9. Every column generated from a `PropertyManifest` is nullable,
whatever the property's declared requiredness; and the generated
schema carries the email uniqueness constraint exactly when the entity
is authenticable. -/
theorem loadEntities_nullable_columns_and_email_unique :
  ∀ (env : List EntityManifest) (em : EntityManifest) (p : PropertyManifest),
    em ∈ env → p ∈ em.properties →
    loadEntity em ∈ loadEntities env ∧
    (∃ col, (loadEntity em).columns.lookup p.name = some col ∧ col.nullable = true) ∧
    ((loadEntity em).uniques = [["email"]] ↔ em.authenticable = true) := by
  intro env em p hmem hp
  refine ⟨List.mem_map_of_mem loadEntity hmem, ?_, ?_⟩
  · exact foldl_upsert_nullable em.properties _ p.name (List.mem_map_of_mem _ hp)
  · simp only [loadEntity]
    cases em.authenticable with
    | true => simp
    | false => simp

/-- Witness for C9 on the authenticable `users` entity and its `name`
property. -/
theorem loadEntities_nullable_columns_and_email_unique_witness :
  loadEntity userManifest ∈ loadEntities [userManifest] ∧
  (∃ col, (loadEntity userManifest).columns.lookup "name" = some col ∧ col.nullable = true) ∧
  ((loadEntity userManifest).uniques = [["email"]] ↔ userManifest.authenticable = true) :=
  loadEntities_nullable_columns_and_email_unique [userManifest] userManifest nameProp
    (by decide) (by decide)
